import Mathlib

/-!
# Verification of the farming-simulator prototype

A shallow embedding of the simulation/economy core of the repository
(`main.py`, `tile.py`, `worker.py`, `plant_instance.py`, `plant_type.py`,
`price_history.py`) together with proofs of the specification's testable
properties.

The repository contains two evolving variants of the prototype:

* the monolithic variant (`main.py`), which plants immediately on click and
  whose workers only harvest; it is embedded below in the `Mono` namespace;
* the modular, feature-complete variant (`tile.py`, `worker.py`,
  `plant_instance.py`, ...), with pending-seed delivery and carried-crop
  workers.  Its `Game` controller file is not part of the sources here (only
  its callers in `worker.py` and the field declarations in `tile.py` are), so
  the `Game` operations it alone defines (`queue_seed`, `pick_crop_from_tile`,
  `deposit_carried_crop`, ...) are modelled from the spec and marked as such.

Python floats are modelled as exact rationals; worker movement divides by a
Euclidean norm, so positions of the monolithic worker are modelled as reals.
-/

/-! ## Constants (main.py lines 10-37) -/

def WINDOW_WIDTH : ℤ := 1024
def WINDOW_HEIGHT : ℤ := 768
def UI_PANEL_HEIGHT : ℤ := 160
def GRID_COLS : ℕ := 10
def GRID_ROWS : ℕ := 6
def TILE_SIZE : ℤ := 64
def GRID_MARGIN_X : ℤ := 20
def GRID_MARGIN_Y : ℤ := 20
def GAME_DURATION : ℚ := 600
def STARTING_MONEY : ℚ := 30000
def LAND_COST : ℚ := 500
def WORKER_COST : ℚ := 2000
def WORKER_UPKEEP_PER_SECOND : ℚ := 5
def SILO_COST : ℚ := 3000
def BASE_STORAGE : ℤ := 50
def SILO_CAPACITY : ℤ := 50
def PRICE_UPDATE_INTERVAL : ℚ := 20
def PRICE_HISTORY_LENGTH : ℕ := 10

/-! ## Plant catalog (plant_type.py; main.py lines 40-47 and 216-223) -/

structure PlantType where
  name : String
  color : ℤ × ℤ × ℤ
  grow_time : ℚ
  seed_cost : ℚ
  sell_price : ℚ
deriving DecidableEq

def create_plant_types : List PlantType :=
  [ { name := "Wheat",   color := (218, 165, 32), grow_time := 15, seed_cost := 50,  sell_price := 80 },
    { name := "Corn",    color := (255, 215, 0),  grow_time := 25, seed_cost := 80,  sell_price := 150 },
    { name := "Berries", color := (178, 34, 34),  grow_time := 40, seed_cost := 120, sell_price := 260 },
    { name := "Pumpkin", color := (255, 140, 0),  grow_time := 60, seed_cost := 160, sell_price := 340 } ]

/-- `Game.get_plant_type_by_name` (main.py lines 353-359): first catalog entry
with the given name, `none` for unknown names or a missing name. -/
def get_plant_type_by_name (name : Option String) : Option PlantType :=
  match name with
  | none => none
  | some n => create_plant_types.find? (fun pt => pt.name = n)

/-! ## Price state (price_history.py; main.py lines 49-53) -/

structure PriceHistory where
  base_price : ℚ
  current_multiplier : ℚ
  history : List ℚ
deriving DecidableEq

/-- The per-crop body of `Game.update_prices` (main.py lines 697-707): a mean
reverting random walk on the multiplier, clamped to [0.5, 1.5], followed by
appending the realized price to the bounded history.  The random draw
`random.uniform(-0.08, 0.08)` is passed in as `delta`. -/
def PriceHistory.advance (ph : PriceHistory) (delta : ℚ) : PriceHistory :=
  let m := ph.current_multiplier + delta + (1 - ph.current_multiplier) * (1/10)
  let m := max (1/2) (min (3/2) m)
  let h := ph.history ++ [ph.base_price * m]
  { ph with
    current_multiplier := m
    history := if PRICE_HISTORY_LENGTH < h.length then h.tail else h }

/-! ## Plant instances (plant_instance.py lines 9-36) -/

structure PlantInstance where
  plant_type : PlantType
  planted_time : ℚ
deriving DecidableEq

/-- `PlantInstance.is_ready` (plant_instance.py lines 22-24). -/
def PlantInstance.is_ready (p : PlantInstance) (current_time : ℚ) : Bool :=
  p.plant_type.grow_time ≤ current_time - p.planted_time

/-- `PlantInstance.progress` (plant_instance.py lines 26-36): clamped growth
fraction, with an explicit guard returning 1.0 for nonpositive grow times. -/
def PlantInstance.progress (p : PlantInstance) (current_time : ℚ) : ℚ :=
  if p.plant_type.grow_time ≤ 0 then 1
  else max 0 (min 1 ((current_time - p.planted_time) / p.plant_type.grow_time))

/-! ## Association-list model of Python dicts (unique string keys) -/

def dictFind {α : Type} (k : String) : List (String × α) → Option α
  | [] => none
  | (k', v) :: rest => if k' = k then some v else dictFind k rest

def dictSet {α : Type} (k : String) (v : α) : List (String × α) → List (String × α)
  | [] => [(k, v)]
  | (k', v') :: rest => if k' = k then (k, v) :: rest else (k', v') :: dictSet k v rest

def sumVals : List (String × ℤ) → ℤ
  | [] => 0
  | (_, v) :: rest => v + sumVals rest

/-- `Game.get_price_info` (main.py lines 547-553): effective sell price is
`base_price * current_multiplier`; the seed price keeps the catalog's
seed-cost over sell-price proportion.  The dict always holds every catalog
name, so the lookup default is never exercised on program states. -/
def get_price_info (phs : List (String × PriceHistory)) (pt : PlantType) : ℚ × ℚ :=
  let ph := (dictFind pt.name phs).getD { base_price := pt.sell_price, current_multiplier := 1, history := [] }
  let sell_price := ph.base_price * ph.current_multiplier
  (sell_price, sell_price * (pt.seed_cost / pt.sell_price))

/-! ## Geometry: the slice of pygame.Rect the core uses -/

structure Rect where
  left : ℤ
  top : ℤ
  width : ℤ
  height : ℤ
deriving DecidableEq

/-- `pygame.Rect.center` (the grid's rects have positive even sizes, so
integer division matches Python's floor division). -/
def Rect.center (r : Rect) : ℤ × ℤ :=
  (r.left + r.width / 2, r.top + r.height / 2)

/-! ## Nearest-candidate search

Both worker variants run the same loop: `best = None; best_dist = inf;
for t in candidates: if dist2 < best_dist: best, best_dist = t, dist2`
(worker.py lines 49-60, main.py lines 98-108).  `nearestAux` is that loop with
the accumulator made explicit; a strict `<` means the first of several
equidistant candidates is kept. -/

def nearestAux {τ α : Type} [LinearOrder α] (f : τ → α) : Option τ → List τ → Option τ
  | best, [] => best
  | none, c :: rest => nearestAux f (some c) rest
  | some b, c :: rest => nearestAux f (if f c < f b then some c else some b) rest

def nearestBy {τ α : Type} [LinearOrder α] (f : τ → α) (l : List τ) : Option τ :=
  nearestAux f none l

/-! ## The modular, feature-complete variant

`Tile` is tile.py lines 10-29; `Worker` is worker.py.  The controller state
`FGame` carries the fields of the feature-complete `Game` that the modular
`Tile`/`Worker` code reads and writes.  Workers hold their target as an index
into the controller's tile list (the Python object reference). -/

structure Tile where
  grid_x : ℤ
  grid_y : ℤ
  rect : Rect
  purchased : Bool
  plant : Option PlantInstance
  pending_plant_type : Option PlantType
  has_silo : Bool
deriving DecidableEq

/-- `Tile.can_plant` (tile.py lines 20-29): purchased, no plant, no pending
seed, no silo. -/
def Tile.can_plant (t : Tile) : Bool :=
  t.purchased && t.plant.isNone && t.pending_plant_type.isNone && !t.has_silo

structure Worker where
  x : ℚ
  y : ℚ
  speed : ℚ
  target_tile : Option ℕ
  carried_plant_type : Option PlantType
deriving DecidableEq

/-- Squared Euclidean distance from a worker to a tile's rect center
(worker.py lines 53-56). -/
def Worker.dist2 (w : Worker) (t : Tile) : ℚ :=
  let dx : ℚ := (t.rect.center.1 : ℚ) - w.x
  let dy : ℚ := (t.rect.center.2 : ℚ) - w.y
  dx * dx + dy * dy

/-- The three candidate sets of `Worker.find_target` (worker.py lines 29-47),
as filters over the indexed tile list. -/
def siloCandidates (tiles : List Tile) : List (ℕ × Tile) :=
  tiles.enum.filter (fun it => it.2.has_silo)

def pendingCandidates (tiles : List Tile) : List (ℕ × Tile) :=
  tiles.enum.filter (fun it => it.2.pending_plant_type.isSome && it.2.purchased && !it.2.has_silo)

def readyCandidates (tiles : List Tile) (current_time : ℚ) : List (ℕ × Tile) :=
  tiles.enum.filter (fun it =>
    match it.2.plant with
    | some p => p.is_ready current_time
    | none => false)

/-- `Worker._nearest_tile` (worker.py lines 49-60) over indexed tiles. -/
def Worker.nearest_tile (w : Worker) (cands : List (ℕ × Tile)) : Option (ℕ × Tile) :=
  nearestBy (fun it => w.dist2 it.2) cands

/-- `Worker.find_target` (worker.py lines 22-47): if carrying, nearest silo;
else nearest pending seed, if any; else nearest ready plant. -/
def Worker.find_target (w : Worker) (tiles : List Tile) (current_time : ℚ) : Worker :=
  if w.carried_plant_type.isSome then
    { w with target_tile := (w.nearest_tile (siloCandidates tiles)).map Prod.fst }
  else if pendingCandidates tiles ≠ [] then
    { w with target_tile := (w.nearest_tile (pendingCandidates tiles)).map Prod.fst }
  else
    { w with target_tile := (w.nearest_tile (readyCandidates tiles current_time)).map Prod.fst }

/-- The feature-complete controller state: the fields of the modular variant's
`Game` that `worker.py` and the farm actions read and write. -/
structure FGame where
  money : ℚ
  game_time : ℚ
  game_over : Bool
  tiles : List Tile
  inventory : List (String × ℤ)
  num_silos : ℤ
  price_histories : List (String × PriceHistory)
deriving DecidableEq

def FGame.storage_capacity (g : FGame) : ℤ :=
  BASE_STORAGE + g.num_silos * SILO_CAPACITY

def FGame.inventory_total (g : FGame) : ℤ :=
  sumVals g.inventory

/-- Modelled from the spec: `Game.deposit_carried_crop` of the feature-complete
variant is not under src/ (worker.py line 108 is its caller).  Spec 4.2:
requires `inventory_total < storage_capacity`; increments the crop's inventory
slot and reports success; reports failure without mutation when storage is
full. -/
def FGame.deposit_carried_crop (g : FGame) (pt : PlantType) : FGame × Bool :=
  if g.inventory_total < g.storage_capacity then
    ({ g with inventory := dictSet pt.name ((dictFind pt.name g.inventory).getD 0 + 1) g.inventory }, true)
  else (g, false)

/-- Modelled from the spec: `Game.pick_crop_from_tile` of the feature-complete
variant is not under src/ (worker.py line 131 is its caller).  Spec 4.2:
requires the plot's plant present, ready, and `inventory_total <
storage_capacity`; on success clears the plot's plant and returns its type
(not yet added to inventory); otherwise returns nothing and leaves the crop on
the plot. -/
def FGame.pick_crop_from_tile (g : FGame) (i : ℕ) : FGame × Option PlantType :=
  match g.tiles.get? i with
  | none => (g, none)
  | some t =>
    match t.plant with
    | none => (g, none)
    | some p =>
      if p.is_ready g.game_time ∧ g.inventory_total < g.storage_capacity then
        ({ g with tiles := g.tiles.set i { t with plant := none } }, some p.plant_type)
      else (g, none)

/-- Modelled from the spec: `Game.queue_seed` of the feature-complete variant
(the planting branch of its click handler) is not under src/; tile.py declares
the `pending_plant_type` field it sets and worker.py consumes it.  Spec 4.2:
requires `can_plant()`, money at least the current effective seed price, and
the session not over; deducts the seed price and sets `pending_plant_type`;
planting is not immediate. -/
def FGame.queue_seed (g : FGame) (i : ℕ) (pt : PlantType) : FGame :=
  match g.tiles.get? i with
  | none => g
  | some t =>
    if t.can_plant ∧ g.game_over = false ∧ (get_price_info g.price_histories pt).2 ≤ g.money then
      { g with
        money := g.money - (get_price_info g.price_histories pt).2
        tiles := g.tiles.set i { t with pending_plant_type := some pt } }
    else g

/-- Modelled from the spec: `buy_land` of the feature-complete variant is not
under src/.  Spec 4.2: requires the plot unpurchased, money at least the land
cost and the session not over; deducts the cost and marks the plot purchased;
silently refuses otherwise. -/
def FGame.buy_land (g : FGame) (i : ℕ) : FGame :=
  match g.tiles.get? i with
  | none => g
  | some t =>
    if t.purchased = false ∧ LAND_COST ≤ g.money ∧ g.game_over = false then
      { g with money := g.money - LAND_COST, tiles := g.tiles.set i { t with purchased := true } }
    else g

/-- Modelled from the spec: `begin_silo_placement` of the feature-complete
variant is not under src/.  Spec 4.2: requires the plot purchased, no plant,
no pending seed, no existing silo, money at least the silo cost and the
session active; deducts the cost, sets `has_silo` and increments the silo
count. -/
def FGame.build_silo (g : FGame) (i : ℕ) : FGame :=
  match g.tiles.get? i with
  | none => g
  | some t =>
    if t.purchased = true ∧ t.plant = none ∧ t.pending_plant_type = none ∧ t.has_silo = false
        ∧ SILO_COST ≤ g.money ∧ g.game_over = false then
      { g with
        money := g.money - SILO_COST
        num_silos := g.num_silos + 1
        tiles := g.tiles.set i { t with has_silo := true } }
    else g

/-- `Worker._on_arrival` (worker.py lines 101-134): deliver a carried crop at a
silo, plant a pending seed, or pick a ready plant, and clear the target. -/
def Worker.on_arrival (g : FGame) (w : Worker) : FGame × Worker :=
  match w.target_tile with
  | none => (g, w)
  | some i =>
    match g.tiles.get? i with
    | none => (g, w)
    | some tile =>
      match w.carried_plant_type with
      | some cpt =>
        if tile.has_silo then
          let r := g.deposit_carried_crop cpt
          (r.1, { w with
                  carried_plant_type := if r.2 then none else some cpt
                  target_tile := none })
        else (g, w)
      | none =>
        match tile.pending_plant_type, tile.plant with
        | some pt, none =>
          let tile' : Tile :=
            { tile with plant := some ⟨pt, g.game_time⟩, pending_plant_type := none }
          ({ g with tiles := g.tiles.set i tile' }, { w with target_tile := none })
        | _, _ =>
          match tile.plant with
          | some p =>
            if p.is_ready g.game_time then
              let r := g.pick_crop_from_tile i
              (r.1, { w with carried_plant_type := r.2, target_tile := none })
            else (g, w)
          | none => (g, w)

/-! ## The shared grid (main.py lines 233-246) -/

def tileRect (x y : ℕ) : Rect :=
  { left := GRID_MARGIN_X + x * TILE_SIZE
    top := GRID_MARGIN_Y + y * TILE_SIZE
    width := TILE_SIZE - 2
    height := TILE_SIZE - 2 }

def gridCoords : List (ℕ × ℕ) :=
  (List.range GRID_ROWS).flatMap (fun y => (List.range GRID_COLS).map (fun x => (x, y)))

/-- `Game.create_tiles` for the modular tile type (the same fixed grid as
main.py lines 233-246; tiles start unpurchased, empty, with no pending seed
and no silo). -/
def create_tiles_modular : List Tile :=
  gridCoords.map (fun c =>
    { grid_x := c.1, grid_y := c.2, rect := tileRect c.1 c.2
      purchased := false, plant := none, pending_plant_type := none, has_silo := false })

/-! ## The monolithic variant (main.py) -/

namespace Mono

/-- The monolithic `Tile` (main.py lines 71-82): no pending-seed field. -/
structure Tile where
  grid_x : ℤ
  grid_y : ℤ
  rect : Rect
  purchased : Bool
  plant : Option PlantInstance
  has_silo : Bool
deriving DecidableEq

/-- `Tile.can_plant` (main.py lines 80-82). -/
def Tile.can_plant (t : Tile) : Bool :=
  t.purchased && t.plant.isNone && !t.has_silo

/-- The monolithic `Worker` (main.py lines 85-90): position is real-valued
because movement divides by a Euclidean norm. -/
structure Worker where
  x : ℝ
  y : ℝ
  speed : ℝ
  target_tile : Option ℕ

/-- The worker spawn point (main.py lines 200-201, 284-289, 457-459):
`(WINDOW_WIDTH // 2, WINDOW_HEIGHT // 2 - UI_PANEL_HEIGHT)`. -/
noncomputable def spawn_worker : Worker :=
  { x := ((WINDOW_WIDTH / 2 : ℤ) : ℝ)
    y := ((WINDOW_HEIGHT / 2 - UI_PANEL_HEIGHT : ℤ) : ℝ)
    speed := 70
    target_tile := none }

/-- `Game.create_tiles` (main.py lines 233-246). -/
def create_tiles : List Tile :=
  gridCoords.map (fun c =>
    { grid_x := c.1, grid_y := c.2, rect := tileRect c.1 c.2
      purchased := false, plant := none, has_silo := false })

/-- The monolithic `Game` state (main.py `reset_state`, lines 186-214), minus
the pure presentation fields (screen, fonts, buttons, hovered tile). -/
structure Game where
  paused : Bool
  game_time : ℚ
  game_over : Bool
  money : ℚ
  workers : List Worker
  num_silos : ℤ
  inventory : List (String × ℤ)
  price_histories : List (String × PriceHistory)
  selected_plant_type : Option PlantType
  tiles : List Tile
  silo_mode : Bool
  selected_silo_tile : Option ℕ
  price_update_timer : ℚ
  save_timer : ℚ

/-- `Game.storage_capacity` (main.py lines 539-541). -/
def Game.storage_capacity (g : Game) : ℤ :=
  BASE_STORAGE + g.num_silos * SILO_CAPACITY

/-- `Game.inventory_total` (main.py lines 543-545). -/
def Game.inventory_total (g : Game) : ℤ :=
  sumVals g.inventory

/-- `Game.harvest_tile` (main.py lines 555-564): no-op without a plant or with
storage full; otherwise add one crop of the plant's type to inventory and
clear the tile's plant. -/
def Game.harvest_tile (g : Game) (i : ℕ) : Game :=
  match g.tiles.get? i with
  | none => g
  | some t =>
    match t.plant with
    | none => g
    | some p =>
      if g.storage_capacity ≤ g.inventory_total then g
      else
        { g with
          inventory := dictSet p.plant_type.name ((dictFind p.plant_type.name g.inventory).getD 0 + 1) g.inventory
          tiles := g.tiles.set i { t with plant := none } }

/-- `Game.sell_inventory` (main.py lines 566-572). -/
def Game.sell_inventory (g : Game) : Game :=
  create_plant_types.foldl (fun g pt =>
    let count := (dictFind pt.name g.inventory).getD 0
    if 0 < count then
      { g with
        money := g.money + count * (get_price_info g.price_histories pt).1
        inventory := dictSet pt.name 0 g.inventory }
    else g) g

/-- `Game.update_prices` (main.py lines 697-707), with the random draws passed
in as `deltas`, one per catalog crop.  A missing dict entry would be a Python
`KeyError`; the dict holds every catalog name on all program states. -/
def Game.update_prices (g : Game) (deltas : List ℚ) : Game :=
  { g with
    price_histories := (create_plant_types.zip deltas).foldl (fun phs pd =>
      match dictFind pd.1.name phs with
      | some ph => dictSet pd.1.name (ph.advance pd.2) phs
      | none => phs) g.price_histories }

/-- `Game.handle_tile_click` (main.py lines 620-668).  The pointer-to-tile
resolution (`rect.collidepoint`) is abstracted to the index of the clicked
tile, `none` when the click hits no tile (grid rects are disjoint, so at most
one tile is hit).  A `none` selected plant type would crash Python in step 4;
it is always set on program states, so that branch is a no-op here. -/
def Game.handle_tile_click (g : Game) (hit : Option ℕ) : Game :=
  match hit with
  | none => { g with selected_silo_tile := none }
  | some i =>
    match g.tiles.get? i with
    | none => { g with selected_silo_tile := none }
    | some t =>
      if t.purchased = false then
        if LAND_COST ≤ g.money ∧ g.game_over = false then
          { g with
            money := g.money - LAND_COST
            tiles := g.tiles.set i { t with purchased := true }
            selected_silo_tile := none }
        else { g with selected_silo_tile := none }
      else if g.silo_mode then
        let g' :=
          if t.has_silo = false ∧ t.plant = none ∧ SILO_COST ≤ g.money ∧ g.game_over = false then
            { g with
              money := g.money - SILO_COST
              tiles := g.tiles.set i { t with has_silo := true }
              num_silos := g.num_silos + 1
              selected_silo_tile := some i }
          else g
        { g' with silo_mode := false }
      else if t.has_silo then { g with selected_silo_tile := some i }
      else
        let g' := { g with selected_silo_tile := none }
        if t.can_plant ∧ g.game_over = false then
          match g.selected_plant_type with
          | some pt =>
            if (get_price_info g.price_histories pt).2 ≤ g.money then
              { g' with
                money := g.money - (get_price_info g.price_histories pt).2
                tiles := g.tiles.set i { t with plant := some ⟨pt, g.game_time⟩ } }
            else g'
          | none => g'
        else g'

/-- The `buy_land` intent: the unpurchased-tile branch of `handle_tile_click`
(main.py lines 625-631).  On a purchased tile that branch does not run, so the
land-purchase operation leaves the state alone there. -/
def Game.buy_land (g : Game) (i : ℕ) : Game :=
  match g.tiles.get? i with
  | none => g
  | some t =>
    if t.purchased = false then
      if LAND_COST ≤ g.money ∧ g.game_over = false then
        { g with
          money := g.money - LAND_COST
          tiles := g.tiles.set i { t with purchased := true }
          selected_silo_tile := none }
      else { g with selected_silo_tile := none }
    else g

/-- The Buy Worker button callback (main.py lines 281-289). -/
noncomputable def Game.buy_worker (g : Game) : Game :=
  if WORKER_COST ≤ g.money ∧ g.game_over = false then
    { g with money := g.money - WORKER_COST, workers := g.workers ++ [spawn_worker] }
  else g

/-- The Dismiss Worker button callback (main.py lines 296-298): LIFO pop. -/
def Game.dismiss_worker (g : Game) : Game :=
  if g.workers.isEmpty = false ∧ g.game_over = false then
    { g with workers := g.workers.dropLast }
  else g

/-- Squared distance from a monolithic worker to a tile center (main.py lines
101-104). -/
noncomputable def Worker.dist2 (w : Worker) (t : Tile) : ℝ :=
  let dx : ℝ := ((t.rect.center.1 : ℤ) : ℝ) - w.x
  let dy : ℝ := ((t.rect.center.2 : ℤ) : ℝ) - w.y
  dx * dx + dy * dy

/-- The monolithic `Worker.find_target` (main.py lines 92-108): nearest tile
with a ready plant, `none` when there is none. -/
noncomputable def Worker.find_target (w : Worker) (tiles : List Tile) (current_time : ℚ) : Worker :=
  let ready := tiles.enum.filter (fun it =>
    match it.2.plant with
    | some p => p.is_ready current_time
    | none => false)
  { w with target_tile := (nearestBy (fun it => w.dist2 it.2) ready).map Prod.fst }

open Classical in
/-- The monolithic `Worker.update` (main.py lines 110-133): re-target when the
target is gone or no longer ready, harvest within the arrival threshold, else
move along the unit vector toward the target center. -/
noncomputable def Worker.update (g : Game) (w : Worker) (dt : ℚ) : Game × Worker :=
  let stale : Bool :=
    match w.target_tile with
    | none => true
    | some i =>
      match g.tiles.get? i with
      | none => true
      | some t =>
        match t.plant with
        | none => true
        | some p => !p.is_ready g.game_time
  let w := if stale then w.find_target g.tiles g.game_time else w
  match w.target_tile with
  | none => (g, w)
  | some i =>
    match g.tiles.get? i with
    | none => (g, w)
    | some t =>
      let dx : ℝ := ((t.rect.center.1 : ℤ) : ℝ) - w.x
      let dy : ℝ := ((t.rect.center.2 : ℤ) : ℝ) - w.y
      let dist : ℝ := Real.sqrt (dx * dx + dy * dy)
      if dist < 4 then (g.harvest_tile i, { w with target_tile := none })
      else if 0 < dist then
        (g, { w with
              x := w.x + dx / dist * w.speed * (dt : ℝ)
              y := w.y + dy / dist * w.speed * (dt : ℝ) })
      else (g, w)

/-- The worker loop of `Game.update` (main.py lines 726-728): each worker in
order mutates itself and the game (`Worker.update` never reads the worker
list, so threading the state through is exact). -/
noncomputable def Game.update_workers (g : Game) (dt : ℚ) : Game :=
  let r := g.workers.foldl (fun (acc : Game × List Worker) w =>
    let uw := Worker.update acc.1 w dt
    (uw.1, acc.2 ++ [uw.2])) (g, [])
  { r.1 with workers := r.2 }

/-- The second half of `Game.update` (main.py lines 723-734): worker upkeep,
the worker loop, and the price-update timer with overflow carry. -/
noncomputable def Game.update_tail (g : Game) (dt : ℚ) (deltas : List ℚ) : Game :=
  let g := { g with money := g.money - WORKER_UPKEEP_PER_SECOND * (g.workers.length : ℚ) * dt }
  let g := g.update_workers dt
  let g := { g with price_update_timer := g.price_update_timer + dt }
  if PRICE_UPDATE_INTERVAL ≤ g.price_update_timer then
    Game.update_prices { g with price_update_timer := g.price_update_timer - PRICE_UPDATE_INTERVAL } deltas
  else g

/-- The clock step of `Game.update` (main.py lines 713-717): advance
`game_time` and `save_timer`; `save_state` only writes a file, so its state
effect is resetting `save_timer` once it reaches one second. -/
def Game.advance_clock (g : Game) (dt : ℚ) : Game :=
  let g := { g with game_time := g.game_time + dt, save_timer := g.save_timer + dt }
  if 1 ≤ g.save_timer then { g with save_timer := 0 } else g

/-- The duration check of `Game.update` (main.py lines 719-721). -/
def Game.check_duration (g : Game) : Game :=
  if GAME_DURATION ≤ g.game_time then { g with game_over := true, paused := true } else g

/-- `Game.update` (main.py lines 709-734), with the price-update random draws
passed in as `deltas`. -/
noncomputable def Game.update (g : Game) (dt : ℚ) (deltas : List ℚ) : Game :=
  if g.game_over then g
  else Game.update_tail (Game.check_duration (Game.advance_clock g dt)) dt deltas

/-- The session operations available without an explicit reset: the tick, the
player intents of main.py (clicks, worker purchase/dismissal, selling,
pausing, direct harvest), and — modelled from the spec's scenario "even if
time is artificially reset without an explicit reset() call" — a raw
assignment to `game_time`. -/
inductive MOp where
  | tick (dt : ℚ) (deltas : List ℚ)
  | click (hit : Option ℕ)
  | buyLand (i : ℕ)
  | harvest (i : ℕ)
  | buyWorker
  | dismissWorker
  | sellAll
  | togglePause
  | setGameTime (t : ℚ)

/-- One session operation.  `sellAll` and `togglePause` carry the
`game_over` guards of their button callbacks (main.py lines 322-324 and
331-334). -/
noncomputable def Game.step (g : Game) : MOp → Game
  | .tick dt deltas => g.update dt deltas
  | .click hit => g.handle_tile_click hit
  | .buyLand i => g.buy_land i
  | .harvest i => g.harvest_tile i
  | .buyWorker => g.buy_worker
  | .dismissWorker => g.dismiss_worker
  | .sellAll => if g.game_over then g else g.sell_inventory
  | .togglePause => if g.game_over then g else { g with paused := !g.paused }
  | .setGameTime t => { g with game_time := t }

noncomputable def Game.run (g : Game) (ops : List MOp) : Game :=
  ops.foldl Game.step g

/-! ## The snapshot (main.py lines 361-514)

`SaveData` is the serialized shape `to_dict` emits and `load_from_dict`
consumes.  The `workers` field keeps the three cases `load_from_dict`
distinguishes on raw JSON: present and numeric (`int()` succeeds, possibly
negative), absent (the `data.get` default, the current worker-list length, is
used), and present but non-numeric (`int()` raises and the handler falls back
to the current worker-list length). -/

inductive WorkersField where
  | missing
  | intVal (n : ℤ)
  | nonNumeric
deriving DecidableEq

structure TileData where
  x : ℤ
  y : ℤ
  purchased : Bool
  has_silo : Bool
  plant : Option (String × ℚ)
deriving DecidableEq

structure SaveData where
  money : ℚ
  game_time : ℚ
  num_silos : ℤ
  workers : WorkersField
  inventory : List (String × ℤ)
  selected_plant_type : Option String
  price_update_timer : ℚ
  price_histories : List (String × PriceHistory)
  tiles : List TileData
deriving DecidableEq

/-- The per-tile entry of `Game.to_dict` (main.py lines 383-396). -/
def Tile.to_entry (t : Tile) : TileData :=
  { x := t.grid_x, y := t.grid_y, purchased := t.purchased, has_silo := t.has_silo
    plant := t.plant.map (fun p => (p.plant_type.name, p.planted_time)) }

/-- `Game.to_dict` (main.py lines 361-398). -/
def Game.to_dict (g : Game) : SaveData :=
  { money := g.money
    game_time := g.game_time
    num_silos := g.num_silos
    workers := .intVal g.workers.length
    inventory := g.inventory
    selected_plant_type := g.selected_plant_type.map (fun pt => pt.name)
    price_update_timer := g.price_update_timer
    price_histories := g.price_histories
    tiles := g.tiles.map Tile.to_entry }

/-- The per-tile restore of `load_from_dict` (main.py lines 480-494): the tile
is overwritten from the entry; its plant is rebuilt only when the entry has
one, the tile ends up purchased and the crop name is in the catalog. -/
def applyTileData (td : TileData) (t : Tile) : Tile :=
  let plant : Option PlantInstance :=
    match td.plant with
    | some pl =>
      if td.purchased then
        match get_plant_type_by_name (some pl.1) with
        | some pt => some ⟨pt, pl.2⟩
        | none => none
      else none
    | none => none
  { t with purchased := td.purchased, has_silo := td.has_silo, plant := plant }

/-- One iteration of the tile-restoring loop of `load_from_dict` (main.py
lines 470-496): entries whose coordinates match no current tile are skipped;
a matching tile is overwritten and counted when it now has a silo.  (Grid
coordinates are distinct on program states, so updating all matching tiles
equals updating the dict-looked-up one.) -/
def loadTileStep (acc : List Tile × ℤ) (td : TileData) : List Tile × ℤ :=
  if acc.1.any (fun t => decide (t.grid_x = td.x ∧ t.grid_y = td.y)) then
    (acc.1.map (fun t => if t.grid_x = td.x ∧ t.grid_y = td.y then applyTileData td t else t),
     acc.2 + (if td.has_silo then 1 else 0))
  else acc

/-- `Game.load_from_dict` (main.py lines 400-514). -/
noncomputable def Game.load_from_dict (g : Game) (d : SaveData) : Game :=
  let inv0 : List (String × ℤ) := create_plant_types.map (fun pt => (pt.name, 0))
  let inventory := d.inventory.foldl (fun inv nv =>
    if (dictFind nv.1 inv).isSome then dictSet nv.1 nv.2 inv else inv) inv0
  let phs := create_plant_types.map (fun pt =>
    match dictFind pt.name d.price_histories with
    | some e =>
      (pt.name,
       { base_price := e.base_price
         current_multiplier := e.current_multiplier
         history := if e.history = [] then [e.base_price] else e.history : PriceHistory })
    | none =>
      (pt.name,
       { base_price := pt.sell_price, current_multiplier := 1, history := [pt.sell_price] }))
  let selected : Option PlantType :=
    match get_plant_type_by_name d.selected_plant_type with
    | some pt => some pt
    | none => create_plant_types.head?
  let wcount : ℕ :=
    match d.workers with
    | .missing => g.workers.length
    | .intVal n => (max 0 n).toNat
    | .nonNumeric => g.workers.length
  let workers := List.replicate wcount spawn_worker
  let workers := if workers.isEmpty then [spawn_worker] else workers
  let tr := d.tiles.foldl loadTileStep (g.tiles, 0)
  let over : Bool := GAME_DURATION ≤ d.game_time
  { paused := over
    game_time := d.game_time
    game_over := over
    money := d.money
    workers := workers
    num_silos := max tr.2 d.num_silos
    inventory := inventory
    price_histories := phs
    selected_plant_type := selected
    tiles := tr.1
    silo_mode := false
    selected_silo_tile := none
    price_update_timer := d.price_update_timer
    save_timer := 0 }

end Mono

/-! ## List helper lemmas -/

lemma get?_some_lt {α : Type} : ∀ (l : List α) (i : ℕ) (a : α), l.get? i = some a → i < l.length
  | [], i, a, h => by simp at h
  | x :: xs, 0, a, _ => by simp
  | x :: xs, i + 1, a, h => by
    have := get?_some_lt xs i a (by simpa using h)
    simpa using this

lemma listSet_get?_self {α : Type} : ∀ (l : List α) (i : ℕ) (a : α),
    i < l.length → (l.set i a).get? i = some a
  | x :: xs, 0, a, _ => rfl
  | x :: xs, i + 1, a, h => by
    have := listSet_get?_self xs i a (by simpa using h)
    simpa using this

lemma listMap_set {α β : Type} (f : α → β) : ∀ (l : List α) (i : ℕ) (a : α),
    (l.set i a).map f = (l.map f).set i (f a)
  | [], _, _ => by simp
  | x :: xs, 0, a => rfl
  | x :: xs, i + 1, a => by simp [listMap_set f xs i a]

lemma listSet_same {α : Type} : ∀ (l : List α) (i : ℕ) (a : α), l.get? i = some a → l.set i a = l
  | [], _, _, h => by simp at h
  | x :: xs, 0, a, h => by simp_all
  | x :: xs, i + 1, a, h => by
    have := listSet_same xs i a (by simpa using h)
    simp [this]

lemma mem_of_mem_listSet {α : Type} : ∀ (l : List α) (i : ℕ) (a b : α), b ∈ l.set i a → b ∈ l ∨ b = a
  | [], i, a, b, h => by simp at h
  | x :: xs, 0, a, b, h => by
    rcases (List.mem_cons).mp h with h | h
    · exact Or.inr h
    · exact Or.inl (List.mem_cons_of_mem _ h)
  | x :: xs, i + 1, a, b, h => by
    rcases (List.mem_cons).mp h with h | h
    · exact Or.inl (by simp [h])
    · rcases mem_of_mem_listSet xs i a b h with h | h
      · exact Or.inl (List.mem_cons_of_mem _ h)
      · exact Or.inr h

lemma sumVals_dictSet_add_one : ∀ (inv : List (String × ℤ)) (n : String),
    sumVals (dictSet n ((dictFind n inv).getD 0 + 1) inv) = sumVals inv + 1
  | [], n => by simp [dictFind, dictSet, sumVals]
  | (k, v) :: rest, n => by
    by_cases h : k = n
    · simp [dictFind, dictSet, h, sumVals]
      ring
    · simp only [dictFind, dictSet, if_neg h, sumVals]
      rw [sumVals_dictSet_add_one rest n]
      ring

/-! ## Claim C10: totality and clamping of PlantInstance.progress -/

/-- Claim C10: for every plant instance and every current time,
`progress(current_time)` lies in [0, 1], and when the plant type's grow time
is zero or negative it returns 1.0 instead of dividing by zero. -/
theorem progress_clamped (p : PlantInstance) (t : ℚ) :
    0 ≤ p.progress t ∧ p.progress t ≤ 1 ∧ (p.plant_type.grow_time ≤ 0 → p.progress t = 1) := by
  by_cases h : p.plant_type.grow_time ≤ 0
  · simp [PlantInstance.progress, h]
  · refine ⟨?_, ?_, fun hc => absurd hc h⟩
    · simp only [PlantInstance.progress, if_neg h]
      exact le_max_left _ _
    · simp only [PlantInstance.progress, if_neg h]
      exact max_le (by norm_num) (min_le_left _ _)

theorem progress_clamped_witness :
    PlantInstance.progress ⟨⟨"Moss", (0, 0, 0), 0, 1, 1⟩, 5⟩ 9 = 1 :=
  (progress_clamped ⟨⟨"Moss", (0, 0, 0), 0, 1, 1⟩, 5⟩ 9).2.2 (by decide)

/-! ## Claim C3: the price multiplier stays in [0.5, 1.5] -/

lemma advance_multiplier_mem (ph : PriceHistory) (d : ℚ) :
    1/2 ≤ (ph.advance d).current_multiplier ∧ (ph.advance d).current_multiplier ≤ 3/2 := by
  refine ⟨le_max_left _ _, max_le (by norm_num) (min_le_left _ _)⟩

lemma foldl_advance_mem (ph : PriceHistory) (l : List ℚ) (h : l ≠ []) :
    1/2 ≤ (l.foldl PriceHistory.advance ph).current_multiplier ∧
      (l.foldl PriceHistory.advance ph).current_multiplier ≤ 3/2 := by
  induction l generalizing ph with
  | nil => exact absurd rfl h
  | cons d rest ih =>
    cases rest with
    | nil => simpa using advance_multiplier_mem ph d
    | cons e tail => simpa using ih (ph.advance d) (by simp)

/-- Claim C3: starting from any crop's `PriceHistory` and for every sequence
of random deltas drawn from [-0.08, 0.08], after each `advance` (the per-crop
body of `update_prices`) the current multiplier lies within [0.5, 1.5]. -/
theorem multiplier_bounded (ph : PriceHistory) (deltas : List ℚ)
    (hr : ∀ d ∈ deltas, -(2/25 : ℚ) ≤ d ∧ d ≤ 2/25)
    (k : ℕ) (hk1 : 1 ≤ k) (hk2 : k ≤ deltas.length) :
    1/2 ≤ ((deltas.take k).foldl PriceHistory.advance ph).current_multiplier ∧
      ((deltas.take k).foldl PriceHistory.advance ph).current_multiplier ≤ 3/2 := by
  apply foldl_advance_mem
  intro hnil
  rcases List.take_eq_nil_iff.mp hnil with h | h
  · omega
  · subst h
    simp at hk2
    omega

theorem multiplier_bounded_witness :
    1/2 ≤ (([(2/25 : ℚ), -(2/25 : ℚ)].take 2).foldl PriceHistory.advance ⟨80, 1, [80]⟩).current_multiplier ∧
      (([(2/25 : ℚ), -(2/25 : ℚ)].take 2).foldl PriceHistory.advance ⟨80, 1, [80]⟩).current_multiplier ≤ 3/2 :=
  multiplier_bounded ⟨80, 1, [80]⟩ [2/25, -(2/25)] (by norm_num) 2 (by norm_num) (by norm_num)

/-! ## Claim C4: storage boundary and atomicity of harvesting -/

/-- Claim C4: on a tile with a ready plant, `harvest_tile` leaves the whole
state unchanged when `inventory_total` equals `storage_capacity`, and succeeds
— clearing the tile's plant and growing the inventory by one — when
`inventory_total` equals `storage_capacity - 1`. -/
theorem harvest_storage_boundary (g : Mono.Game) (i : ℕ) (t : Mono.Tile) (p : PlantInstance)
    (hti : g.tiles.get? i = some t) (hp : t.plant = some p)
    (hready : p.is_ready g.game_time = true) :
    (g.inventory_total = g.storage_capacity → g.harvest_tile i = g) ∧
    (g.inventory_total = g.storage_capacity - 1 →
      (g.harvest_tile i).tiles.get? i = some { t with plant := none } ∧
        (g.harvest_tile i).inventory_total = g.inventory_total + 1) := by
  constructor
  · intro he
    unfold Mono.Game.harvest_tile
    simp only [hti, hp]
    rw [if_pos he.ge]
  · intro he
    have hlt : ¬ g.storage_capacity ≤ g.inventory_total := by omega
    unfold Mono.Game.harvest_tile
    simp only [hti, hp]
    rw [if_neg hlt]
    constructor
    · exact listSet_get?_self _ _ _ (get?_some_lt _ _ _ hti)
    · exact sumVals_dictSet_add_one g.inventory p.plant_type.name

def wheat : PlantType := { name := "Wheat", color := (218, 165, 32), grow_time := 15, seed_cost := 50, sell_price := 80 }

def basePhs : List (String × PriceHistory) :=
  create_plant_types.map (fun pt => (pt.name, ⟨pt.sell_price, 1, [pt.sell_price]⟩))

def tileRipe : Mono.Tile :=
  { grid_x := 0, grid_y := 0, rect := tileRect 0 0, purchased := true
    plant := some ⟨wheat, 0⟩, has_silo := false }

def gFull : Mono.Game :=
  { paused := false, game_time := 20, game_over := false, money := 1000
    workers := [], num_silos := 0
    inventory := [("Wheat", 50), ("Corn", 0), ("Berries", 0), ("Pumpkin", 0)]
    price_histories := basePhs
    selected_plant_type := some wheat
    tiles := [tileRipe], silo_mode := false, selected_silo_tile := none
    price_update_timer := 0, save_timer := 0 }

def gAlmostFull : Mono.Game :=
  { gFull with inventory := [("Wheat", 49), ("Corn", 0), ("Berries", 0), ("Pumpkin", 0)] }

theorem harvest_storage_boundary_witness :
    Mono.Game.harvest_tile gFull 0 = gFull ∧
    ((Mono.Game.harvest_tile gAlmostFull 0).tiles.get? 0 = some { tileRipe with plant := none } ∧
      (Mono.Game.harvest_tile gAlmostFull 0).inventory_total = gAlmostFull.inventory_total + 1) :=
  ⟨(harvest_storage_boundary gFull 0 tileRipe ⟨wheat, 0⟩ rfl rfl
      (by norm_num [PlantInstance.is_ready, wheat, gFull])).1 (by decide),
   (harvest_storage_boundary gAlmostFull 0 tileRipe ⟨wheat, 0⟩ rfl rfl
      (by norm_num [PlantInstance.is_ready, wheat, gAlmostFull, gFull])).2 (by decide)⟩

/-! ## Claim C8: buy_land idempotence and silent refusal -/

lemma buy_land_noop_of_purchased (g : Mono.Game) (i : ℕ) (t : Mono.Tile)
    (hti : g.tiles.get? i = some t) (hpur : t.purchased = true) : g.buy_land i = g := by
  unfold Mono.Game.buy_land
  simp only [hti]
  rw [if_neg (by simp [hpur])]

lemma buy_land_poor (g : Mono.Game) (i : ℕ) (hmoney : g.money < LAND_COST) :
    g.buy_land i = g ∨ g.buy_land i = { g with selected_silo_tile := none } := by
  unfold Mono.Game.buy_land
  split
  · exact Or.inl rfl
  · split
    · rw [if_neg (fun hc => absurd hc.1 (not_le.mpr hmoney))]
      exact Or.inr rfl
    · exact Or.inl rfl

/-- Claim C8 (amended): buying the same plot twice charges the land cost
exactly once; a `buy_land` call on an already-purchased plot is a complete
no-op, and one with insufficient funds charges nothing and changes no plot —
though on an unpurchased plot it still clears the silo-selection pointer —
and no call raises an error. -/
theorem buy_land_idempotent :
    (∀ (g : Mono.Game) (i : ℕ) (t : Mono.Tile), g.tiles.get? i = some t →
      t.purchased = false → LAND_COST ≤ g.money → g.game_over = false →
      ((g.buy_land i).buy_land i).money = g.money - LAND_COST ∧
        ((g.buy_land i).buy_land i).tiles.get? i = some { t with purchased := true }) ∧
    (∀ (g : Mono.Game) (i : ℕ) (t : Mono.Tile), g.tiles.get? i = some t →
      t.purchased = true → g.buy_land i = g) ∧
    (∀ (g : Mono.Game) (i : ℕ), g.money < LAND_COST →
      (g.buy_land i).money = g.money ∧ (g.buy_land i).tiles = g.tiles) := by
  refine ⟨?_, fun g i t hti hpur => buy_land_noop_of_purchased g i t hti hpur, ?_⟩
  · intro g i t hti hpur hmoney hover
    have h1 : g.buy_land i =
        { g with
          money := g.money - LAND_COST
          tiles := g.tiles.set i { t with purchased := true }
          selected_silo_tile := none } := by
      unfold Mono.Game.buy_land
      simp only [hti]
      rw [if_pos hpur, if_pos (show LAND_COST ≤ g.money ∧ g.game_over = false from ⟨hmoney, hover⟩)]
    have hget : (g.buy_land i).tiles.get? i = some { t with purchased := true } := by
      rw [h1]
      exact listSet_get?_self _ _ _ (get?_some_lt _ _ _ hti)
    have h2 : (g.buy_land i).buy_land i = g.buy_land i :=
      buy_land_noop_of_purchased _ i _ hget rfl
    rw [h2, h1]
    exact ⟨rfl, listSet_get?_self _ _ _ (get?_some_lt _ _ _ hti)⟩
  · intro g i hmoney
    rcases buy_land_poor g i hmoney with h | h <;> rw [h] <;> exact ⟨rfl, rfl⟩

def gPoor : Mono.Game :=
  { paused := false, game_time := 0, game_over := false, money := 0
    workers := [], num_silos := 0
    inventory := [("Wheat", 0), ("Corn", 0), ("Berries", 0), ("Pumpkin", 0)]
    price_histories := basePhs
    selected_plant_type := some wheat
    tiles := [{ grid_x := 0, grid_y := 0, rect := tileRect 0 0, purchased := false, plant := none, has_silo := false }]
    silo_mode := false, selected_silo_tile := some 0
    price_update_timer := 0, save_timer := 0 }

/-- Counterexample to claim C8 as stated: with money 0 (below the land cost of
500) a `buy_land` call on the unpurchased plot 0 does change state — it clears
the silo-selection pointer (main.py line 630). -/
theorem buy_land_insufficient_funds_counterexample :
    gPoor.money < LAND_COST ∧ gPoor.selected_silo_tile = some 0 ∧
      (gPoor.buy_land 0).selected_silo_tile = none := by
  refine ⟨by norm_num [gPoor, LAND_COST], rfl, ?_⟩
  have hti : gPoor.tiles.get? 0 =
      some { grid_x := 0, grid_y := 0, rect := tileRect 0 0, purchased := false, plant := none, has_silo := false } := rfl
  have h1 : gPoor.buy_land 0 = { gPoor with selected_silo_tile := none } := by
    unfold Mono.Game.buy_land
    simp only [hti]
    rw [if_pos trivial, if_neg (by norm_num [gPoor, LAND_COST])]
  rw [h1]

theorem buy_land_idempotent_witness :
    ((Mono.Game.buy_land (Mono.Game.buy_land { gPoor with money := 30000 } 0) 0).money = 30000 - LAND_COST ∧
      (Mono.Game.buy_land (Mono.Game.buy_land { gPoor with money := 30000 } 0) 0).tiles.get? 0 =
        some { grid_x := 0, grid_y := 0, rect := tileRect 0 0, purchased := true, plant := none, has_silo := false }) ∧
    ((Mono.Game.buy_land gPoor 0).money = gPoor.money ∧ (Mono.Game.buy_land gPoor 0).tiles = gPoor.tiles) :=
  ⟨buy_land_idempotent.1 { gPoor with money := 30000 } 0
      { grid_x := 0, grid_y := 0, rect := tileRect 0 0, purchased := false, plant := none, has_silo := false }
      rfl rfl (by norm_num [LAND_COST]) rfl,
   buy_land_idempotent.2.2 gPoor 0 (by norm_num [gPoor, LAND_COST])⟩

/-! ## Claim C9: the loader never leaves the session without a worker -/

lemma load_workers_eq (g : Mono.Game) (d : Mono.SaveData) :
    (g.load_from_dict d).workers =
      (let c : ℕ :=
        match d.workers with
        | .missing => g.workers.length
        | .intVal n => (max 0 n).toNat
        | .nonNumeric => g.workers.length
       if (List.replicate c Mono.spawn_worker).isEmpty then [Mono.spawn_worker]
       else List.replicate c Mono.spawn_worker) := rfl

lemma ensure_one_length {α : Type} (c : ℕ) (a : α) :
    1 ≤ (if (List.replicate c a).isEmpty then [a] else List.replicate c a).length := by
  cases c with
  | zero => simp
  | succ n => simp [List.replicate]

/-- Claim C9 (amended): `load_from_dict` always leaves at least one worker; a
recorded worker count that is zero or negative loads as exactly one worker at
the canonical spawn point; a non-numeric count falls back to the worker count
from before the load (one on the program's only load path, which runs directly
after `reset_state`), again floored at one worker. -/
theorem load_workers_at_least_one :
    (∀ (g : Mono.Game) (d : Mono.SaveData), 1 ≤ (g.load_from_dict d).workers.length) ∧
    (∀ (g : Mono.Game) (d : Mono.SaveData) (n : ℤ), d.workers = .intVal n → n ≤ 0 →
      (g.load_from_dict d).workers = [Mono.spawn_worker]) ∧
    (∀ (g : Mono.Game) (d : Mono.SaveData), d.workers = .nonNumeric →
      (g.load_from_dict d).workers.length = max 1 g.workers.length) := by
  refine ⟨?_, ?_, ?_⟩
  · intro g d
    rw [load_workers_eq]
    exact ensure_one_length _ _
  · intro g d n hw hn
    rw [load_workers_eq]
    simp only [hw]
    have hz : (max 0 n).toNat = 0 := by omega
    rw [hz]
    rfl
  · intro g d hw
    rw [load_workers_eq]
    simp only [hw]
    cases hl : g.workers.length with
    | zero => simp
    | succ k =>
      have hne : (List.replicate (k + 1) Mono.spawn_worker).isEmpty = false := rfl
      rw [hne]
      simp only [if_false, Bool.false_eq_true, List.length_replicate]
      omega

noncomputable def gTwoWorkers : Mono.Game :=
  { gPoor with workers := [Mono.spawn_worker, Mono.spawn_worker] }

def dNonNumeric : Mono.SaveData :=
  { money := 0, game_time := 0, num_silos := 0, workers := .nonNumeric, inventory := []
    selected_plant_type := none, price_update_timer := 0, price_histories := [], tiles := [] }

/-- Counterexample to claim C9 as stated: loading a snapshot with a
non-numeric worker count into a session that currently has two workers leaves
two workers, not exactly one — `int()` raises and the handler falls back to
`len(self.workers)` (main.py lines 453-456). -/
theorem load_workers_nonnumeric_counterexample :
    dNonNumeric.workers = .nonNumeric ∧
      (gTwoWorkers.load_from_dict dNonNumeric).workers.length = 2 := by
  refine ⟨rfl, ?_⟩
  rw [load_workers_eq]
  rfl

theorem load_workers_at_least_one_witness :
    (gPoor.load_from_dict { dNonNumeric with workers := .intVal (-3) }).workers = [Mono.spawn_worker] :=
  load_workers_at_least_one.2.1 gPoor { dNonNumeric with workers := .intVal (-3) } (-3) rfl (by decide)

/-! ## Claim C1: two-phase planting -/

/-- Claim C1: queueing a seed on a plot where `can_plant()` holds, with enough
money and the session not over, deducts the current effective seed price and
sets the plot's `pending_plant_type` while creating no `PlantInstance`
anywhere; a worker arriving at such a plot (not carrying, plot pending and
empty) creates the `PlantInstance` with `planted_time` equal to the game time
at arrival and clears `pending_plant_type` at that same moment. -/
theorem two_phase_planting :
    (∀ (g : FGame) (i : ℕ) (t : Tile) (pt : PlantType),
      g.tiles.get? i = some t → t.can_plant = true →
      (get_price_info g.price_histories pt).2 ≤ g.money → g.game_over = false →
      (g.queue_seed i pt).money = g.money - (get_price_info g.price_histories pt).2 ∧
        (g.queue_seed i pt).tiles.get? i = some { t with pending_plant_type := some pt } ∧
        (g.queue_seed i pt).tiles.map Tile.plant = g.tiles.map Tile.plant) ∧
    (∀ (g : FGame) (w : Worker) (i : ℕ) (t : Tile) (pt : PlantType),
      w.target_tile = some i → w.carried_plant_type = none →
      g.tiles.get? i = some t → t.pending_plant_type = some pt → t.plant = none →
      (Worker.on_arrival g w).1.tiles.get? i =
          some { t with plant := some ⟨pt, g.game_time⟩, pending_plant_type := none } ∧
        (Worker.on_arrival g w).2.target_tile = none) := by
  constructor
  · intro g i t pt hti hcp hmoney hover
    have hstep : g.queue_seed i pt =
        { g with
          money := g.money - (get_price_info g.price_histories pt).2
          tiles := g.tiles.set i { t with pending_plant_type := some pt } } := by
      unfold FGame.queue_seed
      simp only [hti]
      rw [if_pos ⟨hcp, hover, hmoney⟩]
    refine ⟨by rw [hstep], by rw [hstep]; exact listSet_get?_self _ _ _ (get?_some_lt _ _ _ hti), ?_⟩
    rw [hstep]
    show (g.tiles.set i { t with pending_plant_type := some pt }).map Tile.plant = g.tiles.map Tile.plant
    rw [listMap_set]
    apply listSet_same
    rw [List.get?_map, hti]
    rfl
  · intro g w i t pt hw hc hti hpend hplant
    have hstep : Worker.on_arrival g w =
        ({ g with tiles := g.tiles.set i { t with plant := some ⟨pt, g.game_time⟩, pending_plant_type := none } },
         { w with target_tile := none }) := by
      unfold Worker.on_arrival
      simp only [hw, hti, hc, hpend, hplant]
    rw [hstep]
    exact ⟨listSet_get?_self _ _ _ (get?_some_lt _ _ _ hti), rfl⟩

def fgQueue : FGame :=
  { money := 30000, game_time := 0, game_over := false
    tiles := [{ grid_x := 0, grid_y := 0, rect := tileRect 0 0, purchased := true
                plant := none, pending_plant_type := none, has_silo := false }]
    inventory := [("Wheat", 0)], num_silos := 0
    price_histories := [("Wheat", ⟨80, 1, [80]⟩)] }

def fgArrive : FGame :=
  { fgQueue with
    game_time := 7
    tiles := [{ grid_x := 0, grid_y := 0, rect := tileRect 0 0, purchased := true
                plant := none, pending_plant_type := some wheat, has_silo := false }] }

theorem two_phase_planting_witness :
    ((fgQueue.queue_seed 0 wheat).money = fgQueue.money - (get_price_info fgQueue.price_histories wheat).2 ∧
      (fgQueue.queue_seed 0 wheat).tiles.get? 0 =
        some { grid_x := 0, grid_y := 0, rect := tileRect 0 0, purchased := true
               plant := none, pending_plant_type := some wheat, has_silo := false } ∧
      (fgQueue.queue_seed 0 wheat).tiles.map Tile.plant = fgQueue.tiles.map Tile.plant) ∧
    ((Worker.on_arrival fgArrive ⟨0, 0, 70, some 0, none⟩).1.tiles.get? 0 =
        some { grid_x := 0, grid_y := 0, rect := tileRect 0 0, purchased := true
               plant := some ⟨wheat, fgArrive.game_time⟩, pending_plant_type := none, has_silo := false } ∧
      (Worker.on_arrival fgArrive ⟨0, 0, 70, some 0, none⟩).2.target_tile = none) :=
  ⟨two_phase_planting.1 fgQueue 0
      { grid_x := 0, grid_y := 0, rect := tileRect 0 0, purchased := true
        plant := none, pending_plant_type := none, has_silo := false } wheat
      rfl rfl (by norm_num [get_price_info, dictFind, fgQueue, wheat]) rfl,
   two_phase_planting.2 fgArrive ⟨0, 0, 70, some 0, none⟩ 0
      { grid_x := 0, grid_y := 0, rect := tileRect 0 0, purchased := true
        plant := none, pending_plant_type := some wheat, has_silo := false } wheat
      rfl rfl rfl rfl rfl⟩

/-! ## Claim C7: plot exclusivity invariant -/

/-- The exclusivity property of a plot: at most one of an active plant and a
pending seed, and neither together with a silo. -/
def Tile.exclusive (t : Tile) : Bool :=
  !(t.plant.isSome && t.pending_plant_type.isSome) &&
    (!t.has_silo || (t.plant.isNone && t.pending_plant_type.isNone))

/-- The farm operations of the feature-complete variant that touch plots:
buying land, queueing a seed, building a silo, a worker arriving at its
target (which plants pending seeds, delivers carried crops, or picks ready
plants), and picking/harvesting a plot directly. -/
inductive FOp where
  | buyLand (i : ℕ)
  | queueSeed (i : ℕ) (pt : PlantType)
  | buildSilo (i : ℕ)
  | arrive (w : Worker)
  | pick (i : ℕ)

def FGame.fstep (g : FGame) : FOp → FGame
  | .buyLand i => g.buy_land i
  | .queueSeed i pt => g.queue_seed i pt
  | .buildSilo i => g.build_silo i
  | .arrive w => (Worker.on_arrival g w).1
  | .pick i => (g.pick_crop_from_tile i).1

/-- The fresh session of `reset_state` (main.py lines 186-214) for the
feature-complete variant: starting money, time zero, the empty grid, empty
inventory, baseline prices. -/
def FGame.initial : FGame :=
  { money := STARTING_MONEY, game_time := 0, game_over := false
    tiles := create_tiles_modular
    inventory := create_plant_types.map (fun pt => (pt.name, 0))
    num_silos := 0
    price_histories := create_plant_types.map (fun pt => (pt.name, ⟨pt.sell_price, 1, [pt.sell_price]⟩)) }

def FGame.frun (g : FGame) (ops : List FOp) : FGame :=
  ops.foldl FGame.fstep g

lemma exclusive_set_preserved {g : FGame} {i : ℕ} {t' : Tile}
    (h : ∀ t ∈ g.tiles, t.exclusive = true) (ht' : t'.exclusive = true) :
    ∀ t ∈ g.tiles.set i t', t.exclusive = true := by
  intro t hmem
  rcases mem_of_mem_listSet _ _ _ _ hmem with hm | hm
  · exact h t hm
  · rw [hm]; exact ht'

lemma pick_preserves_exclusive (g : FGame) (i : ℕ)
    (h : ∀ t ∈ g.tiles, t.exclusive = true) :
    ∀ t ∈ (g.pick_crop_from_tile i).1.tiles, t.exclusive = true := by
  unfold FGame.pick_crop_from_tile
  cases hti : g.tiles.get? i with
  | none => simp only [hti]; exact h
  | some t0 =>
    simp only [hti]
    cases hplant : t0.plant with
    | none => simp only [hplant]; exact h
    | some p =>
      simp only [hplant]
      split
      · apply exclusive_set_preserved h
        have ht0 := h t0 (List.get?_mem hti)
        have hsilo : t0.has_silo = false := by
          by_contra hs
          rw [Bool.not_eq_false] at hs
          simp [Tile.exclusive, hs, hplant] at ht0
        simp [Tile.exclusive, hsilo]
      · exact h

lemma fstep_preserves_exclusive (g : FGame) (op : FOp)
    (h : ∀ t ∈ g.tiles, t.exclusive = true) :
    ∀ t ∈ (g.fstep op).tiles, t.exclusive = true := by
  cases op with
  | buyLand i =>
    show ∀ t ∈ (g.buy_land i).tiles, t.exclusive = true
    unfold FGame.buy_land
    cases hti : g.tiles.get? i with
    | none => simp only [hti]; exact h
    | some t0 =>
      simp only [hti]
      split
      · apply exclusive_set_preserved h
        have := h t0 (List.get?_mem hti)
        simpa [Tile.exclusive] using this
      · exact h
  | queueSeed i pt =>
    show ∀ t ∈ (g.queue_seed i pt).tiles, t.exclusive = true
    unfold FGame.queue_seed
    cases hti : g.tiles.get? i with
    | none => simp only [hti]; exact h
    | some t0 =>
      simp only [hti]
      split
      · next hcond =>
        apply exclusive_set_preserved h
        have hcp := hcond.1
        simp only [Tile.can_plant, Bool.and_eq_true, Bool.not_eq_true'] at hcp
        simp [Tile.exclusive, hcp.1.1.2, hcp.2]
      · exact h
  | buildSilo i =>
    show ∀ t ∈ (g.build_silo i).tiles, t.exclusive = true
    unfold FGame.build_silo
    cases hti : g.tiles.get? i with
    | none => simp only [hti]; exact h
    | some t0 =>
      simp only [hti]
      split
      · next hcond =>
        apply exclusive_set_preserved h
        simp [Tile.exclusive, hcond.2.1, hcond.2.2.1]
      · exact h
  | arrive w =>
    show ∀ t ∈ (Worker.on_arrival g w).1.tiles, t.exclusive = true
    unfold Worker.on_arrival
    cases hw : w.target_tile with
    | none => simp only [hw]; exact h
    | some i =>
      simp only [hw]
      cases hti : g.tiles.get? i with
      | none => simp only [hti]; exact h
      | some t0 =>
        simp only [hti]
        cases hc : w.carried_plant_type with
        | some cpt =>
          simp only [hc]
          split
          · show ∀ t ∈ (g.deposit_carried_crop cpt).1.tiles, t.exclusive = true
            unfold FGame.deposit_carried_crop
            split <;> exact h
          · exact h
        | none =>
          simp only [hc]
          have ht0 := h t0 (List.get?_mem hti)
          cases hpend : t0.pending_plant_type with
          | some pt =>
            cases hplant : t0.plant with
            | none =>
              simp only [hpend, hplant]
              apply exclusive_set_preserved h
              have hsilo : t0.has_silo = false := by
                by_contra hs
                rw [Bool.not_eq_false] at hs
                simp [Tile.exclusive, hs, hpend] at ht0
              simp [Tile.exclusive, hsilo]
            | some p =>
              simp only [hpend, hplant]
              split
              · exact pick_preserves_exclusive g i h
              · exact h
          | none =>
            cases hplant : t0.plant with
            | some p =>
              simp only [hpend, hplant]
              split
              · exact pick_preserves_exclusive g i h
              · exact h
            | none =>
              simp only [hpend, hplant]
              exact h
  | pick i =>
    exact pick_preserves_exclusive g i h

lemma frun_preserves_exclusive (g : FGame) (ops : List FOp)
    (h : ∀ t ∈ g.tiles, t.exclusive = true) :
    ∀ t ∈ (g.frun ops).tiles, t.exclusive = true := by
  induction ops generalizing g with
  | nil => exact h
  | cons op rest ih => exact ih (g.fstep op) (fstep_preserves_exclusive g op h)

lemma initial_exclusive : ∀ t ∈ FGame.initial.tiles, t.exclusive = true := by
  intro t ht
  simp only [FGame.initial, create_tiles_modular, List.mem_map] at ht
  obtain ⟨c, _, rfl⟩ := ht
  rfl

/-- Claim C7: every plot reachable from the fresh session by any sequence of
farm operations (buying land, queueing seeds, worker arrivals/planting, silo
building, harvesting) holds at most one of an active plant and a pending
seed, and never a plant or pending seed together with a silo. -/
theorem plot_exclusivity_invariant (ops : List FOp) (t : Tile)
    (ht : t ∈ (FGame.initial.frun ops).tiles) :
    ¬(t.plant.isSome = true ∧ t.pending_plant_type.isSome = true) ∧
      (t.has_silo = true → t.plant = none ∧ t.pending_plant_type = none) := by
  have hex := frun_preserves_exclusive FGame.initial ops initial_exclusive t ht
  simp only [Tile.exclusive, Bool.and_eq_true, Bool.not_eq_true', Bool.or_eq_true,
    Bool.not_eq_true, Bool.and_eq_false_iff] at hex
  constructor
  · intro hand
    rcases hex.1 with h | h
    · rw [hand.1] at h; exact absurd h (by simp)
    · rw [hand.2] at h; exact absurd h (by simp)
  · intro hs
    rcases hex.2 with h | h
    · rw [hs] at h; exact absurd h (by simp)
    · exact ⟨Option.isNone_iff_eq_none.mp h.1, Option.isNone_iff_eq_none.mp h.2⟩

def tFresh : Tile :=
  { grid_x := 0, grid_y := 0, rect := tileRect 0 0, purchased := true
    plant := none, pending_plant_type := none, has_silo := false }

theorem plot_exclusivity_invariant_witness :
    ¬(tFresh.plant.isSome = true ∧ tFresh.pending_plant_type.isSome = true) ∧
      (tFresh.has_silo = true → tFresh.plant = none ∧ tFresh.pending_plant_type = none) :=
  plot_exclusivity_invariant [FOp.buyLand 0] tFresh (by decide)

/-! ## Claim C5: worker target selection -/

lemma nearestAux_some_spec {τ α : Type} [LinearOrder α] (f : τ → α) :
    ∀ (l : List τ) (b : τ),
      (nearestAux f (some b) l = some b ∧ ∀ d ∈ l, f b ≤ f d)
      ∨ (∃ pre c suf, l = pre ++ c :: suf ∧ nearestAux f (some b) l = some c ∧
          f c < f b ∧ (∀ d ∈ pre, f c < f d) ∧ (∀ d ∈ suf, f c ≤ f d)) := by
  intro l
  induction l with
  | nil => intro b; exact Or.inl ⟨rfl, by simp⟩
  | cons a rest ih =>
    intro b
    by_cases hab : f a < f b
    · have hstep : nearestAux f (some b) (a :: rest) = nearestAux f (some a) rest := by
        simp [nearestAux, hab]
      rcases ih a with ⟨heq, hall⟩ | ⟨pre, c, suf, hdecomp, heq, hlt, hpre, hsuf⟩
      · right
        exact ⟨[], a, rest, rfl, by rw [hstep, heq], hab, by simp, hall⟩
      · right
        refine ⟨a :: pre, c, suf, by simp [hdecomp], by rw [hstep, heq], lt_trans hlt hab, ?_, hsuf⟩
        intro d hd
        rcases List.mem_cons.mp hd with rfl | hd
        · exact hlt
        · exact hpre d hd
    · have hba : f b ≤ f a := not_lt.mp hab
      have hstep : nearestAux f (some b) (a :: rest) = nearestAux f (some b) rest := by
        simp [nearestAux, hab]
      rcases ih b with ⟨heq, hall⟩ | ⟨pre, c, suf, hdecomp, heq, hlt, hpre, hsuf⟩
      · left
        refine ⟨by rw [hstep, heq], ?_⟩
        intro d hd
        rcases List.mem_cons.mp hd with rfl | hd
        · exact hba
        · exact hall d hd
      · right
        refine ⟨a :: pre, c, suf, by simp [hdecomp], by rw [hstep, heq], hlt, ?_, hsuf⟩
        intro d hd
        rcases List.mem_cons.mp hd with rfl | hd
        · exact lt_of_lt_of_le hlt hba
        · exact hpre d hd

lemma nearestBy_spec {τ α : Type} [LinearOrder α] (f : τ → α) (l : List τ) :
    (l = [] ∧ nearestBy f l = none) ∨
      ∃ pre c suf, l = pre ++ c :: suf ∧ nearestBy f l = some c ∧
        (∀ d ∈ pre, f c < f d) ∧ (∀ d ∈ suf, f c ≤ f d) := by
  cases l with
  | nil => exact Or.inl ⟨rfl, rfl⟩
  | cons b rest =>
    right
    have hstep : nearestBy f (b :: rest) = nearestAux f (some b) rest := rfl
    rcases nearestAux_some_spec f rest b with ⟨heq, hall⟩ | ⟨pre, c, suf, hdecomp, heq, hlt, hpre, hsuf⟩
    · exact ⟨[], b, rest, rfl, by rw [hstep, heq], by simp, hall⟩
    · refine ⟨b :: pre, c, suf, by simp [hdecomp], by rw [hstep, heq], ?_, hsuf⟩
      intro d hd
      rcases List.mem_cons.mp hd with rfl | hd
      · exact hlt
      · exact hpre d hd

/-- The Euclidean distance of the spec: the square root of the squared
distance the code compares. -/
noncomputable def Worker.edist (w : Worker) (t : Tile) : ℝ :=
  Real.sqrt ((w.dist2 t : ℚ) : ℝ)

lemma dist2_nonneg (w : Worker) (t : Tile) : 0 ≤ w.dist2 t := by
  unfold Worker.dist2
  exact add_nonneg (mul_self_nonneg _) (mul_self_nonneg _)

lemma edist_le_edist {w : Worker} {t u : Tile} (h : w.dist2 t ≤ w.dist2 u) :
    w.edist t ≤ w.edist u :=
  Real.sqrt_le_sqrt (by exact_mod_cast h)

lemma edist_lt_edist {w : Worker} {t u : Tile} (h : w.dist2 t < w.dist2 u) :
    w.edist t < w.edist u := by
  apply Real.sqrt_lt_sqrt
  · exact_mod_cast dist2_nonneg w t
  · exact_mod_cast h

/-- The chosen target is a first-nearest candidate: either there is no
candidate and no target, or the candidate list splits around the chosen tile
so that its Euclidean distance is no larger than any candidate's and strictly
smaller than every earlier candidate's (iteration-order tie-break). -/
def SelectsFirstNearest (w : Worker) (cands : List (ℕ × Tile)) (tgt : Option ℕ) : Prop :=
  (cands = [] ∧ tgt = none) ∨
    ∃ pre c suf, cands = pre ++ c :: suf ∧ tgt = some c.1 ∧
      (∀ d ∈ cands, w.edist c.2 ≤ w.edist d.2) ∧
      (∀ d ∈ pre, w.edist c.2 < w.edist d.2)

lemma nearest_tile_selects (w : Worker) (cands : List (ℕ × Tile)) :
    SelectsFirstNearest w cands ((w.nearest_tile cands).map Prod.fst) := by
  rcases nearestBy_spec (fun it => w.dist2 it.2) cands with ⟨hnil, heq⟩ | ⟨pre, c, suf, hdecomp, heq, hpre, hsuf⟩
  · exact Or.inl ⟨hnil, by rw [Worker.nearest_tile, heq]; rfl⟩
  · right
    refine ⟨pre, c, suf, hdecomp, by rw [Worker.nearest_tile, heq]; rfl, ?_,
      fun d hd => edist_lt_edist (hpre d hd)⟩
    intro d hd
    rw [hdecomp] at hd
    rcases List.mem_append.mp hd with hd | hd
    · exact le_of_lt (edist_lt_edist (hpre d hd))
    · rcases List.mem_cons.mp hd with rfl | hd
      · exact le_refl _
      · exact edist_le_edist (hsuf d hd)

/-- Claim C5: when a worker re-targets via `find_target`, it picks, in strict
priority order — (1) if carrying, among tiles with a silo; (2) else among
purchased non-silo tiles with a pending seed, when any exist; (3) else among
tiles with a ready plant — the tile of minimum Euclidean distance from the
worker's position to the tile center, ties broken in favor of the first tile
in iteration order. -/
theorem find_target_priority_nearest (w : Worker) (tiles : List Tile) (current_time : ℚ) :
    (w.carried_plant_type.isSome = true →
      SelectsFirstNearest w (siloCandidates tiles) (w.find_target tiles current_time).target_tile) ∧
    (w.carried_plant_type = none → pendingCandidates tiles ≠ [] →
      SelectsFirstNearest w (pendingCandidates tiles) (w.find_target tiles current_time).target_tile) ∧
    (w.carried_plant_type = none → pendingCandidates tiles = [] →
      SelectsFirstNearest w (readyCandidates tiles current_time) (w.find_target tiles current_time).target_tile) := by
  refine ⟨?_, ?_, ?_⟩
  · intro hc
    have ht : (w.find_target tiles current_time).target_tile =
        (w.nearest_tile (siloCandidates tiles)).map Prod.fst := by
      unfold Worker.find_target
      rw [if_pos hc]
    rw [ht]
    exact nearest_tile_selects w _
  · intro hc hne
    have hcs : ¬ w.carried_plant_type.isSome = true := by simp [hc]
    have ht : (w.find_target tiles current_time).target_tile =
        (w.nearest_tile (pendingCandidates tiles)).map Prod.fst := by
      unfold Worker.find_target
      rw [if_neg hcs, if_pos hne]
    rw [ht]
    exact nearest_tile_selects w _
  · intro hc hnil
    have hcs : ¬ w.carried_plant_type.isSome = true := by simp [hc]
    have ht : (w.find_target tiles current_time).target_tile =
        (w.nearest_tile (readyCandidates tiles current_time)).map Prod.fst := by
      unfold Worker.find_target
      rw [if_neg hcs, if_neg (by simp [hnil])]
    rw [ht]
    exact nearest_tile_selects w _

def tPending : Tile :=
  { grid_x := 0, grid_y := 0, rect := tileRect 0 0, purchased := true
    plant := none, pending_plant_type := some wheat, has_silo := false }

theorem find_target_priority_nearest_witness :
    SelectsFirstNearest ⟨0, 0, 70, none, none⟩ (pendingCandidates [tPending])
      ((Worker.find_target ⟨0, 0, 70, none, none⟩ [tPending] 0).target_tile) :=
  (find_target_priority_nearest ⟨0, 0, 70, none, none⟩ [tPending] 0).2.1 rfl (by decide)

/-! ## Claim C6: game over is a terminal latched state -/

lemma harvest_go_paused (g : Mono.Game) (i : ℕ) :
    (g.harvest_tile i).game_over = g.game_over ∧ (g.harvest_tile i).paused = g.paused := by
  unfold Mono.Game.harvest_tile
  repeat' split
  all_goals exact ⟨rfl, rfl⟩

lemma worker_update_go_paused (g : Mono.Game) (w : Mono.Worker) (dt : ℚ) :
    (Mono.Worker.update g w dt).1.game_over = g.game_over ∧
      (Mono.Worker.update g w dt).1.paused = g.paused := by
  unfold Mono.Worker.update
  dsimp only []
  repeat' split
  all_goals first
    | exact ⟨rfl, rfl⟩
    | exact harvest_go_paused g _

lemma foldl_workers_go (dt : ℚ) : ∀ (ws : List Mono.Worker) (acc : Mono.Game × List Mono.Worker),
    ((ws.foldl (fun acc w =>
        ((Mono.Worker.update acc.1 w dt).1, acc.2 ++ [(Mono.Worker.update acc.1 w dt).2])) acc).1.game_over
      = acc.1.game_over) ∧
    ((ws.foldl (fun acc w =>
        ((Mono.Worker.update acc.1 w dt).1, acc.2 ++ [(Mono.Worker.update acc.1 w dt).2])) acc).1.paused
      = acc.1.paused) := by
  intro ws
  induction ws with
  | nil => intro acc; exact ⟨rfl, rfl⟩
  | cons w rest ih =>
    intro acc
    have h := worker_update_go_paused acc.1 w dt
    have h2 := ih ((Mono.Worker.update acc.1 w dt).1, acc.2 ++ [(Mono.Worker.update acc.1 w dt).2])
    exact ⟨h2.1.trans h.1, h2.2.trans h.2⟩

lemma update_workers_go_paused (g : Mono.Game) (dt : ℚ) :
    (g.update_workers dt).game_over = g.game_over ∧ (g.update_workers dt).paused = g.paused := by
  have h := foldl_workers_go dt g.workers (g, [])
  exact ⟨h.1, h.2⟩

lemma update_tail_go_paused (g : Mono.Game) (dt : ℚ) (deltas : List ℚ) :
    (g.update_tail dt deltas).game_over = g.game_over ∧
      (g.update_tail dt deltas).paused = g.paused := by
  unfold Mono.Game.update_tail
  dsimp only []
  split
  · exact ⟨(update_workers_go_paused _ dt).1, (update_workers_go_paused _ dt).2⟩
  · exact ⟨(update_workers_go_paused _ dt).1, (update_workers_go_paused _ dt).2⟩

lemma advance_clock_game_time (g : Mono.Game) (dt : ℚ) :
    (g.advance_clock dt).game_time = g.game_time + dt := by
  unfold Mono.Game.advance_clock
  dsimp only []
  split <;> rfl

lemma advance_clock_go (g : Mono.Game) (dt : ℚ) :
    (g.advance_clock dt).game_over = g.game_over := by
  unfold Mono.Game.advance_clock
  dsimp only []
  split <;> rfl

lemma check_duration_flags (g : Mono.Game) (h : GAME_DURATION ≤ g.game_time) :
    g.check_duration = { g with game_over := true, paused := true } := by
  unfold Mono.Game.check_duration
  rw [if_pos h]

lemma update_noop_of_game_over (g : Mono.Game) (dt : ℚ) (deltas : List ℚ)
    (h : g.game_over = true) : g.update dt deltas = g := by
  unfold Mono.Game.update
  rw [if_pos h]

lemma update_sets_flags (g : Mono.Game) (dt : ℚ) (deltas : List ℚ)
    (hover : g.game_over = false) (hcross : GAME_DURATION ≤ g.game_time + dt) :
    (g.update dt deltas).game_over = true ∧ (g.update dt deltas).paused = true := by
  unfold Mono.Game.update
  rw [if_neg (by simp [hover]),
    check_duration_flags _ (by rw [advance_clock_game_time]; exact hcross)]
  exact ⟨((update_tail_go_paused _ dt deltas).1).trans rfl,
    ((update_tail_go_paused _ dt deltas).2).trans rfl⟩

lemma click_go (g : Mono.Game) (hit : Option ℕ) :
    (g.handle_tile_click hit).game_over = g.game_over := by
  unfold Mono.Game.handle_tile_click
  repeat' split
  all_goals rfl

lemma mono_buy_land_go (g : Mono.Game) (i : ℕ) :
    (g.buy_land i).game_over = g.game_over := by
  unfold Mono.Game.buy_land
  repeat' split
  all_goals rfl

lemma sell_inventory_go (g : Mono.Game) :
    g.sell_inventory.game_over = g.game_over := by
  unfold Mono.Game.sell_inventory
  have key : ∀ (pts : List PlantType) (g0 : Mono.Game),
      (pts.foldl (fun g pt =>
        let count := (dictFind pt.name g.inventory).getD 0
        if 0 < count then
          { g with
            money := g.money + count * (get_price_info g.price_histories pt).1
            inventory := dictSet pt.name 0 g.inventory }
        else g) g0).game_over = g0.game_over := by
    intro pts
    induction pts with
    | nil => intro g0; rfl
    | cons pt rest ih =>
      intro g0
      rw [List.foldl_cons, ih]
      dsimp only []
      split <;> rfl
  exact key create_plant_types g

lemma step_go (g : Mono.Game) (op : Mono.MOp) (h : g.game_over = true) :
    (g.step op).game_over = true := by
  cases op with
  | tick dt deltas =>
    show (g.update dt deltas).game_over = true
    rw [update_noop_of_game_over g dt deltas h]
    exact h
  | click hit =>
    show (g.handle_tile_click hit).game_over = true
    rw [click_go]
    exact h
  | buyLand i =>
    show (g.buy_land i).game_over = true
    rw [mono_buy_land_go]
    exact h
  | harvest i =>
    show (g.harvest_tile i).game_over = true
    rw [(harvest_go_paused g i).1]
    exact h
  | buyWorker =>
    show (g.buy_worker).game_over = true
    unfold Mono.Game.buy_worker
    split <;> exact h
  | dismissWorker =>
    show (g.dismiss_worker).game_over = true
    unfold Mono.Game.dismiss_worker
    split <;> exact h
  | sellAll =>
    show (if g.game_over then g else g.sell_inventory).game_over = true
    rw [if_pos h]
    exact h
  | togglePause =>
    show (if g.game_over then g else { g with paused := !g.paused }).game_over = true
    rw [if_pos h]
    exact h
  | setGameTime t => exact h

/-- Claim C6: `update` is a no-op on the whole session state when `game_over`
holds; an update that advances `game_time` to at least the 600-second duration
sets both `game_over` and `paused`; and once set, `game_over` stays true under
every session operation short of an explicit reset, including an artificial
change of `game_time`. -/
theorem game_over_latched :
    (∀ (g : Mono.Game) (dt : ℚ) (deltas : List ℚ), g.game_over = true →
      g.update dt deltas = g) ∧
    (∀ (g : Mono.Game) (dt : ℚ) (deltas : List ℚ), g.game_over = false →
      GAME_DURATION ≤ g.game_time + dt →
      (g.update dt deltas).game_over = true ∧ (g.update dt deltas).paused = true) ∧
    (∀ (g : Mono.Game) (ops : List Mono.MOp), g.game_over = true →
      (g.run ops).game_over = true) := by
  refine ⟨update_noop_of_game_over, update_sets_flags, ?_⟩
  intro g ops h
  induction ops generalizing g with
  | nil => exact h
  | cons op rest ih => exact ih (g.step op) (step_go g op h)

noncomputable def gDone : Mono.Game := { gPoor with game_over := true }

theorem game_over_latched_witness :
    Mono.Game.update gDone 1 [] = gDone ∧
    ((Mono.Game.update gPoor 600 []).game_over = true ∧
      (Mono.Game.update gPoor 600 []).paused = true) ∧
    (Mono.Game.run gDone [Mono.MOp.setGameTime 0, Mono.MOp.buyLand 0]).game_over = true :=
  ⟨game_over_latched.1 gDone 1 [] rfl,
   game_over_latched.2.1 gPoor 600 [] rfl (by norm_num [gPoor, GAME_DURATION]),
   game_over_latched.2.2 gDone [Mono.MOp.setGameTime 0, Mono.MOp.buyLand 0] rfl⟩

/-! ## Claim C2: snapshot round-trip -/

/-- Plant well-formedness of a monolithic tile: a plant sits only on purchased
land and its type is the catalog entry of its name (Python shares the catalog
objects, so this holds on all program states). -/
def tileWF (t : Mono.Tile) : Bool :=
  match t.plant with
  | none => true
  | some p =>
    t.purchased && decide (get_plant_type_by_name (some p.plant_type.name) = some p.plant_type)

def coordNe (a b : Mono.Tile) : Prop :=
  ¬(a.grid_x = b.grid_x ∧ a.grid_y = b.grid_y)

instance : DecidableRel coordNe := fun a b => by unfold coordNe; infer_instance

/-- The state invariants of reachable sessions that the round trip relies on:
canonical dict keys (one per catalog crop, in catalog order), nonempty price
histories, distinct grid coordinates, plants only on purchased land with
catalog plant types, and a silo count matching the tiles. -/
def MonoWF (g : Mono.Game) : Prop :=
  g.inventory.map Prod.fst = create_plant_types.map PlantType.name ∧
  g.price_histories.map Prod.fst = create_plant_types.map PlantType.name ∧
  (∀ e ∈ g.price_histories, e.2.history ≠ []) ∧
  g.tiles.Pairwise coordNe ∧
  (∀ t ∈ g.tiles, tileWF t = true) ∧
  g.num_silos = ((g.tiles.filter (fun t => t.has_silo)).length : ℤ)

instance (g : Mono.Game) : Decidable (MonoWF g) := by unfold MonoWF; infer_instance

lemma map_fst_len4 {α : Type} (l : List (String × α)) (k1 k2 k3 k4 : String)
    (h : l.map Prod.fst = [k1, k2, k3, k4]) :
    ∃ a b c d, l = [(k1, a), (k2, b), (k3, c), (k4, d)] := by
  obtain _ | ⟨⟨ka, a⟩, l⟩ := l
  · exact absurd h (by simp)
  obtain _ | ⟨⟨kb, b⟩, l⟩ := l
  · exact absurd h (by simp)
  obtain _ | ⟨⟨kc, c⟩, l⟩ := l
  · exact absurd h (by simp)
  obtain _ | ⟨⟨kd, d⟩, l⟩ := l
  · exact absurd h (by simp)
  obtain _ | ⟨p, l⟩ := l
  · simp only [List.map_cons, List.map_nil, List.cons.injEq, and_true] at h
    exact ⟨a, b, c, d, by rw [h.1, h.2.1, h.2.2.1, h.2.2.2]⟩
  · exact absurd h (by simp)

lemma listMap_id_of {α : Type} (l : List α) (f : α → α) (h : ∀ u ∈ l, f u = u) :
    l.map f = l := by
  induction l with
  | nil => rfl
  | cons a rest ih =>
    rw [List.map_cons, h a (by simp), ih (fun u hu => h u (by simp [hu]))]

lemma inventory_roundtrip (inv : List (String × ℤ))
    (h : inv.map Prod.fst = create_plant_types.map PlantType.name) :
    inv.foldl (fun acc nv => if (dictFind nv.1 acc).isSome then dictSet nv.1 nv.2 acc else acc)
      (create_plant_types.map (fun pt => (pt.name, 0))) = inv := by
  have h4 : inv.map Prod.fst = ["Wheat", "Corn", "Berries", "Pumpkin"] := h
  obtain ⟨a, b, c, d, rfl⟩ := map_fst_len4 inv _ _ _ _ h4
  simp [create_plant_types, dictFind, dictSet]

lemma price_histories_roundtrip (phs : List (String × PriceHistory))
    (h : phs.map Prod.fst = create_plant_types.map PlantType.name)
    (hne : ∀ e ∈ phs, e.2.history ≠ []) :
    (create_plant_types.map (fun pt =>
      match dictFind pt.name phs with
      | some e =>
        (pt.name,
         { base_price := e.base_price
           current_multiplier := e.current_multiplier
           history := if e.history = [] then [e.base_price] else e.history : PriceHistory })
      | none =>
        (pt.name,
         { base_price := pt.sell_price, current_multiplier := 1, history := [pt.sell_price] : PriceHistory }))) = phs := by
  have h4 : phs.map Prod.fst = ["Wheat", "Corn", "Berries", "Pumpkin"] := h
  obtain ⟨a, b, c, d, rfl⟩ := map_fst_len4 phs _ _ _ _ h4
  have ha : a.history ≠ [] := hne ("Wheat", a) (by simp)
  have hb : b.history ≠ [] := hne ("Corn", b) (by simp)
  have hc : c.history ≠ [] := hne ("Berries", c) (by simp)
  have hd : d.history ≠ [] := hne ("Pumpkin", d) (by simp)
  simp [create_plant_types, dictFind, ha, hb, hc, hd]

lemma coordNe_symm {a b : Mono.Tile} (h : coordNe a b) : coordNe b a := by
  unfold coordNe at *
  intro hcontra
  exact h ⟨hcontra.1.symm, hcontra.2.symm⟩

lemma applyTileData_to_entry (t : Mono.Tile) (h : tileWF t = true) :
    Mono.applyTileData t.to_entry t = t := by
  obtain ⟨gx, gy, r, pur, pl, hs⟩ := t
  cases pl with
  | none => rfl
  | some p =>
    simp only [tileWF, Bool.and_eq_true, decide_eq_true_eq] at h
    obtain ⟨hpur, hlook⟩ := h
    subst hpur
    unfold Mono.applyTileData Mono.Tile.to_entry
    simp [hlook]

lemma loadTileStep_hit (done rest : List Mono.Tile) (t : Mono.Tile) (c : ℤ)
    (td : Mono.TileData) (hx : td.x = t.grid_x) (hy : td.y = t.grid_y)
    (hdone : ∀ u ∈ done, coordNe u t)
    (hrest : ∀ u ∈ rest, coordNe t u) :
    Mono.loadTileStep (done ++ t :: rest, c) td =
      (done ++ Mono.applyTileData td t :: rest,
       c + if td.has_silo = true then 1 else 0) := by
  have hmap : ((done ++ t :: rest).map
      (fun u => if u.grid_x = t.grid_x ∧ u.grid_y = t.grid_y
        then Mono.applyTileData td u else u)) =
      done ++ Mono.applyTileData td t :: rest := by
    rw [List.map_append, List.map_cons]
    rw [listMap_id_of done _ (fun u hu => if_neg (hdone u hu))]
    rw [listMap_id_of rest _ (fun u hu => if_neg (coordNe_symm (hrest u hu)))]
    rw [if_pos ⟨rfl, rfl⟩]
  have hany : ((done ++ t :: rest).any
      (fun u => decide (u.grid_x = t.grid_x ∧ u.grid_y = t.grid_y))) = true := by
    rw [List.any_eq_true]
    exact ⟨t, by simp, by simp⟩
  unfold Mono.loadTileStep
  rw [hx, hy, if_pos hany, hmap]

lemma loadTiles_roundtrip : ∀ (rest done : List Mono.Tile) (c : ℤ),
    (∀ u ∈ done, ∀ v ∈ rest, coordNe u v) →
    rest.Pairwise coordNe →
    (∀ t ∈ rest, tileWF t = true) →
    (rest.map Mono.Tile.to_entry).foldl Mono.loadTileStep (done ++ rest, c) =
      (done ++ rest, c + ((rest.filter (fun t => t.has_silo)).length : ℤ)) := by
  intro rest
  induction rest with
  | nil =>
    intro done c _ _ _
    simp
  | cons t rs ih =>
    intro done c hdisj hpair hwf
    rw [List.map_cons, List.foldl_cons]
    rw [loadTileStep_hit done rs t c t.to_entry rfl rfl (fun u hu => hdisj u hu t (by simp))
      (List.pairwise_cons.mp hpair).1]
    rw [applyTileData_to_entry t (hwf t (by simp))]
    have heq : done ++ t :: rs = (done ++ [t]) ++ rs := by simp
    rw [heq]
    rw [ih (done ++ [t]) (c + if t.to_entry.has_silo = true then 1 else 0) ?hdisj2
      (List.pairwise_cons.mp hpair).2 (fun u hu => hwf u (by simp [hu]))]
    case hdisj2 =>
      intro u hu v hv
      rcases List.mem_append.mp hu with hu | hu
      · exact hdisj u hu v (by simp [hv])
      · have : u = t := by simpa using hu
        rw [this]
        exact (List.pairwise_cons.mp hpair).1 v hv
    rw [← heq]
    have hsilo : t.to_entry.has_silo = t.has_silo := rfl
    rw [hsilo]
    have hfilter : ((t :: rs).filter (fun u => u.has_silo)).length =
        ((if t.has_silo = true then 1 else 0) : ℕ) + (rs.filter (fun u => u.has_silo)).length := by
      rw [List.filter_cons]
      by_cases hts : t.has_silo = true <;> simp [hts] <;> omega
    rw [hfilter]
    by_cases hts : t.has_silo = true <;> simp [hts] <;> push_cast <;> ring

/-- Claim C2 (amended): for every well-formed session state, loading the saved
snapshot reproduces money, game_time, the inventory mapping, every plot
(purchased/has_silo/plant), the price histories, and the silo count exactly;
the worker count is reproduced exactly whenever it is positive (worker
positions reset to the canonical spawn point, and the monolithic serializer
stores only the worker count — its workers carry nothing). -/
theorem save_roundtrip_wellformed (g : Mono.Game) (hWF : MonoWF g) :
    (g.load_from_dict g.to_dict).money = g.money ∧
    (g.load_from_dict g.to_dict).game_time = g.game_time ∧
    (g.load_from_dict g.to_dict).inventory = g.inventory ∧
    (g.load_from_dict g.to_dict).price_histories = g.price_histories ∧
    (g.load_from_dict g.to_dict).tiles = g.tiles ∧
    (g.load_from_dict g.to_dict).num_silos = g.num_silos ∧
    (1 ≤ g.workers.length →
      (g.load_from_dict g.to_dict).workers.length = g.workers.length) := by
  obtain ⟨hinv, hph, hne, hpair, htw, hns⟩ := hWF
  have htiles_fold : ((g.tiles.map Mono.Tile.to_entry).foldl Mono.loadTileStep (g.tiles, 0)) =
      (g.tiles, ((g.tiles.filter (fun t => t.has_silo)).length : ℤ)) := by
    have h0 := loadTiles_roundtrip g.tiles [] 0 (by simp) hpair htw
    simpa using h0
  refine ⟨rfl, rfl, ?_, ?_, ?_, ?_, ?_⟩
  · exact inventory_roundtrip g.inventory hinv
  · exact price_histories_roundtrip g.price_histories hph hne
  · show ((g.to_dict.tiles).foldl Mono.loadTileStep (g.tiles, 0)).1 = g.tiles
    rw [show g.to_dict.tiles = g.tiles.map Mono.Tile.to_entry from rfl, htiles_fold]
  · show max ((g.to_dict.tiles).foldl Mono.loadTileStep (g.tiles, 0)).2 g.to_dict.num_silos
      = g.num_silos
    rw [show g.to_dict.tiles = g.tiles.map Mono.Tile.to_entry from rfl, htiles_fold]
    show max ((g.tiles.filter (fun t => t.has_silo)).length : ℤ) g.num_silos = g.num_silos
    rw [hns]
    exact max_self _
  · intro hw
    rw [load_workers_eq]
    have hd : g.to_dict.workers = Mono.WorkersField.intVal (g.workers.length : ℤ) := rfl
    simp only [hd]
    have hc : (max 0 ((g.workers.length : ℤ))).toNat = g.workers.length := by omega
    rw [hc]
    cases hlen : g.workers.length with
    | zero => omega
    | succ k =>
      have hrep : (List.replicate (k + 1) Mono.spawn_worker).isEmpty = false := rfl
      rw [hrep]
      simp

/-- Counterexample to claim C2 as stated: a session with zero workers (the
player can dismiss down to zero) loads back with one worker, so the worker
count does not round-trip exactly. -/
theorem save_roundtrip_zero_workers_counterexample :
    gPoor.workers.length = 0 ∧ (gPoor.load_from_dict gPoor.to_dict).workers.length = 1 := by
  refine ⟨rfl, ?_⟩
  rw [load_workers_eq]
  rfl

noncomputable def gW : Mono.Game :=
  { paused := false, game_time := 12, game_over := false, money := 123
    workers := [Mono.spawn_worker], num_silos := 0
    inventory := [("Wheat", 3), ("Corn", 0), ("Berries", 1), ("Pumpkin", 0)]
    price_histories := basePhs
    selected_plant_type := some wheat
    tiles := [{ grid_x := 0, grid_y := 0, rect := tileRect 0 0, purchased := true, plant := none, has_silo := false }]
    silo_mode := false, selected_silo_tile := none
    price_update_timer := 0, save_timer := 0 }

theorem save_roundtrip_wellformed_witness :
    (gW.load_from_dict gW.to_dict).money = gW.money ∧
    (gW.load_from_dict gW.to_dict).game_time = gW.game_time ∧
    (gW.load_from_dict gW.to_dict).inventory = gW.inventory ∧
    (gW.load_from_dict gW.to_dict).price_histories = gW.price_histories ∧
    (gW.load_from_dict gW.to_dict).tiles = gW.tiles ∧
    (gW.load_from_dict gW.to_dict).num_silos = gW.num_silos ∧
    (1 ≤ gW.workers.length →
      (gW.load_from_dict gW.to_dict).workers.length = gW.workers.length) :=
  save_roundtrip_wellformed gW (by decide)
